import Mathlib

/-!
Verification development for `diff.py` (smarttang/diff-report), a batch
analyzer of MT4/MT5 backtest spreadsheets.

The Python program is shallowly embedded here.  Monetary amounts (the
values of the `盈利` column) are modelled as `Int`: the program only
ever sums and compares them, and these operations are exact on integer
amounts; the classifier's mean (`sum(profits) / len(profits)`) is an
exact rational, modelled as `Rat`.  Trade rows are `TradeRecord`; a
pandas DataFrame of trade rows is `List TradeRecord`.  A spreadsheet on
disk is a `FileInput`: either reading it raises (IOError / parse
error), or it yields a table with a list of column names and a list of
rows.  Exceptions raised by the program are modelled with `Except`.

Notes on pandas semantics used by the embedding:
  * `df.iloc[:-1]` is `List.dropLast`.
  * `df.groupby(k)[v].agg(...)` groups rows by key; each group key occurs
    once.  pandas emits group keys sorted ascending, but the summary is
    re-sorted by `net_profit` immediately afterwards with an unstable
    quicksort, so the relative order of net-profit ties is unspecified in
    the source; the embedding uses first-occurrence key order followed by
    a stable insertion sort, and no theorem below depends on tie order.
  * `Series.idxmax` / `Series.idxmin` return the first index attaining
    the extremum and raise `ValueError` on an empty series.
  * `pd.concat []` raises `ValueError` ("No objects to concatenate").
  * Python's `list.sort` is stable, also with `reverse=True`; it is
    modelled by a stable insertion sort on the key.
  * Python's truthiness test `if top_loss_symbol` on an optional string
    is false both for `None` and for the empty string.
-/

/-- One trade row: instrument identifier (`交易品种`) and signed profit (`盈利`). -/
structure TradeRecord where
  instrument : String
  profit : Int
deriving DecidableEq, Repr

/-- One row of the per-instrument summary produced by
`df.groupby('交易品种')['盈利'].agg(...)`: the four aggregate columns. -/
structure Agg where
  total_profit : Int
  total_loss : Int
  net_profit : Int
  trades : Nat
deriving DecidableEq, Repr

/-- Result of `pd.read_excel`: either the read raises, or a table with
column names and data rows.  When the required columns are missing the
row values are never inspected (`process_file` raises first). -/
inductive ReadResult where
  | failure
  | table (cols : List String) (rows : List TradeRecord)
deriving DecidableEq, Repr

/-- A spreadsheet file as presented to `process_file`. -/
structure FileInput where
  filename : String
  read : ReadResult
deriving DecidableEq, Repr

/-- The exceptions `process_file` can raise: `read_excel` failure, the
explicit `ValueError` for missing required columns, and the `ValueError`
raised by `idxmax` on an empty series. -/
inductive PfError where
  | readError
  | missingCols (missing : List String)
  | emptyArgmax
deriving DecidableEq, Repr

/-- The dict returned by `process_file`. -/
structure FileResult where
  filename : String
  summary : List (String × Agg)
  top_profit : String × Int
  top_loss : Option (String × Int)
deriving DecidableEq, Repr

/-- `required_cols = {'交易品种', '盈利'}`. -/
def requiredCols : List String := ["交易品种", "盈利"]

/-- The aggregate row for one groupby group: `total_profit` sums the
strictly positive profits, `total_loss` the strictly negative ones,
`net_profit` is the plain sum and `trades` the row count. -/
def aggFor (df : List TradeRecord) (sym : String) : Agg :=
  let ps := (df.filter (fun r => r.instrument = sym)).map (fun r => r.profit)
  { total_profit := (ps.filter (fun x => 0 < x)).sum
    total_loss := (ps.filter (fun x => x < 0)).sum
    net_profit := ps.sum
    trades := ps.length }

/-- The distinct group keys of `df.groupby('交易品种')`. -/
def groupKeys (df : List TradeRecord) : List String :=
  (df.map (fun r => r.instrument)).dedup

/-- `.sort_values('net_profit', ascending=False)` (stable sort on the
net-profit key; the source's tie order is unspecified). -/
def sortByNetDesc (l : List (String × Agg)) : List (String × Agg) :=
  List.insertionSort (fun a b => b.2.net_profit ≤ a.2.net_profit) l

/-- The whole `summary` pipeline of `process_file` step 4. -/
def processRecords (df : List TradeRecord) : List (String × Agg) :=
  sortByNetDesc ((groupKeys df).map (fun sym => (sym, aggFor df sym)))

/-- `Series.idxmax` over the `net_profit` column: first row attaining the
maximum, `none` on an empty summary (where pandas raises `ValueError`). -/
def idxmaxNet : List (String × Agg) → Option (String × Agg)
  | [] => none
  | x :: xs =>
      some (xs.foldl (fun best y =>
        if best.2.net_profit < y.2.net_profit then y else best) x)

/-- `Series.idxmin` over the `net_profit` column: first row attaining the
minimum, `none` on an empty summary. -/
def idxminNet : List (String × Agg) → Option (String × Agg)
  | [] => none
  | x :: xs =>
      some (xs.foldl (fun best y =>
        if y.2.net_profit < best.2.net_profit then y else best) x)

/-- `process_file`: read, drop the trailing totals row, check the
required columns, aggregate per instrument, pick best and worst.
`top_loss` reproduces the source's Python truthiness test
`(top_loss_symbol, top_loss_value) if top_loss_symbol else None`,
which is falsy for the empty string as well as for `None`. -/
def process_file (f : FileInput) : Except PfError FileResult :=
  match f.read with
  | .failure => .error .readError
  | .table cols rows =>
    let df := rows.dropLast
    let missing := requiredCols.filter (fun c => ¬ c ∈ cols)
    if missing ≠ [] then .error (.missingCols missing)
    else
      let summary := processRecords df
      match idxmaxNet summary with
      | none => .error .emptyArgmax
      | some top =>
        let loss_df := summary.filter (fun p => p.2.net_profit < 0)
        let top_loss :=
          match idxminNet loss_df with
          | none => none
          | some w => if w.1 = "" then none else some (w.1, w.2.net_profit)
        .ok { filename := f.filename
              summary := summary
              top_profit := (top.1, top.2.net_profit)
              top_loss := top_loss }

/-- First-match lookup in an association list, as pandas label indexing
over a (unique-keyed) index. -/
def lookupSym : List (String × α) → String → Option α
  | [], _ => none
  | (s, v) :: rest, sym => if s = sym then some v else lookupSym rest sym

/-- `defaultdict(list)` update `m[sym].append(v)`: appends to the entry
of `sym`, creating it at the end on first use (insertion order kept). -/
def insertAppend (m : List (String × List Int)) (sym : String) (v : Int) :
    List (String × List Int) :=
  match m with
  | [] => [(sym, [v])]
  | (s, vs) :: rest =>
      if s = sym then (s, vs ++ [v]) :: rest
      else (s, vs) :: insertAppend rest sym v

/-- The loop `for symbol, row in result['summary'].iterrows():
symbol_records[symbol].append(row['net_profit'])`. -/
def addSummaryRecords (m : List (String × List Int))
    (summary : List (String × Agg)) : List (String × List Int) :=
  summary.foldl (fun m p => insertAppend m p.1 p.2.net_profit) m

/-- The mutable state of the per-file loop of `analyze_directory`:
`all_results`, `symbol_records`, and the filenames reported in per-file
error messages. -/
structure ScanState where
  all_results : List FileResult
  symbol_records : List (String × List Int)
  errors : List String
deriving Repr

/-- One iteration of the per-file loop: `try: process_file ... except:
print error`. -/
def scanStep (st : ScanState) (f : FileInput) : ScanState :=
  match process_file f with
  | .ok r =>
      { st with
        all_results := st.all_results ++ [r]
        symbol_records := addSummaryRecords st.symbol_records r.summary }
  | .error _ => { st with errors := st.errors ++ [f.filename] }

/-- The whole per-file loop of `analyze_directory`. -/
def scanFiles (files : List FileInput) : ScanState :=
  files.foldl scanStep ⟨[], [], []⟩

/-- Exceptions the global section can raise: `pd.concat` of an empty
list, and `idxmax`/`idxmin` of an empty series. -/
inductive GlobalError where
  | concatEmpty
  | emptyArgmax
deriving DecidableEq, Repr

/-- `pd.concat(list_of_summaries)`: raises when the list is empty,
otherwise stacks the rows. -/
def pdConcat (ls : List (List (String × Agg))) :
    Except GlobalError (List (String × Agg)) :=
  if ls = [] then .error .concatEmpty else .ok ls.flatten

/-- Component-wise sum of aggregate rows, as `groupby(...).sum()` does
per group (the zero row for an empty group never arises: every group has
at least one member). -/
def sumAggs (l : List Agg) : Agg :=
  { total_profit := (l.map (fun a => a.total_profit)).sum
    total_loss := (l.map (fun a => a.total_loss)).sum
    net_profit := (l.map (fun a => a.net_profit)).sum
    trades := (l.map (fun a => a.trades)).sum }

/-- `global_summary.groupby(global_summary.index).sum()`: one output row
per distinct instrument, summing that instrument's stacked rows. -/
def groupSum (entries : List (String × Agg)) : List (String × Agg) :=
  ((entries.map (fun p => p.1)).dedup).map
    (fun sym =>
      (sym, sumAggs ((entries.filter (fun p => p.1 = sym)).map (fun p => p.2))))

/-- Lines 107–109 of the source: concatenate the per-file summaries,
group by instrument, sum, and re-sort by `net_profit` descending. -/
def mergeSummaries (ls : List (List (String × Agg))) :
    Except GlobalError (List (String × Agg)) :=
  match pdConcat ls with
  | .error e => .error e
  | .ok entries => .ok (sortByNetDesc (groupSum entries))

/-- `sum(profits) / len(profits)`, as an exact rational. -/
def avgR (l : List Int) : Rat := (l.sum : Rat) / (l.length : Rat)

/-- The classification loop over `symbol_records.items()`: skip symbols
seen in fewer than 2 files, else append to the profitable list when all
nets are strictly positive, else to the losing list when all are
strictly negative. -/
def classifySymbols (m : List (String × List Int)) :
    List (String × Rat × Nat) × List (String × Rat × Nat) :=
  m.foldl
    (fun acc p =>
      if p.2.length < 2 then acc
      else if p.2.all (fun x => 0 < x) then
        (acc.1 ++ [(p.1, avgR p.2, p.2.length)], acc.2)
      else if p.2.all (fun x => x < 0) then
        (acc.1, acc.2 ++ [(p.1, avgR p.2, p.2.length)])
      else acc)
    ([], [])

/-- `profitable_symbols.sort(key=lambda x: x[1], reverse=True)`: stable
sort descending by the mean. -/
def sortProfitDesc (l : List (String × Rat × Nat)) : List (String × Rat × Nat) :=
  List.insertionSort (fun a b => b.2.1 ≤ a.2.1) l

/-- `loss_symbols.sort(key=lambda x: x[1])`: stable sort ascending by
the mean. -/
def sortLossAsc (l : List (String × Rat × Nat)) : List (String × Rat × Nat) :=
  List.insertionSort (fun a b => a.2.1 ≤ b.2.1) l

/-- What the global section (steps 3.1–3.3 of `analyze_directory`)
computes and prints. -/
structure GlobalPart where
  global_summary : List (String × Agg)
  global_top_profit : String × Int
  global_top_loss : String × Int
  profitable_symbols : List (String × Rat × Nat)
  loss_symbols : List (String × Rat × Nat)
deriving DecidableEq, Repr

/-- The global section: merge the collected summaries (raising when none
were collected), take `idxmax`/`idxmin` of the merged `net_profit`
column — note the source applies NO negativity filter to the global
worst — and classify `symbol_records`. -/
def globalAnalysis (st : ScanState) : Except GlobalError GlobalPart :=
  match mergeSummaries (st.all_results.map (fun r => r.summary)) with
  | .error e => .error e
  | .ok gs =>
    match idxmaxNet gs, idxminNet gs with
    | some top, some bot =>
        let pl := classifySymbols st.symbol_records
        .ok { global_summary := gs
              global_top_profit := (top.1, top.2.net_profit)
              global_top_loss := (bot.1, bot.2.net_profit)
              profitable_symbols := sortProfitDesc pl.1
              loss_symbols := sortLossAsc pl.2 }
    | _, _ => .error .emptyArgmax

/-- Everything one run of `analyze_directory` produces once files were
found: the per-file loop outcome and the global section, whose exception
(if any) escapes `analyze_directory` uncaught. -/
structure RunResult where
  scan : ScanState
  globalPart : Except GlobalError GlobalPart
deriving Repr

/-- `analyze_directory`: with no `.xlsx` files it prints an informational
message and returns (`none`); otherwise it runs the loop and the global
section. -/
def analyze_directory (files : List FileInput) : Option RunResult :=
  if files = [] then none
  else
    let st := scanFiles files
    some { scan := st, globalPart := globalAnalysis st }

/-- Outcome of the `__main__` block.  `usageError` and `dirError` exit
with code 1 before any file is processed; `noFiles` is the soft
informational return of `analyze_directory`. -/
inductive MainOutcome where
  | usageError
  | dirError
  | noFiles
  | completed (r : RunResult)

/-- The `__main__` block: argument-count check, directory check, then
`analyze_directory`.  `argv` is the full `sys.argv` (program name
included); `isdir` models `os.path.isdir(directory)`; `files` models the
glob result. -/
def mainModel (argv : List String) (isdir : Bool) (files : List FileInput) :
    MainOutcome :=
  if argv.length ≠ 2 then .usageError
  else if ¬ isdir then .dirError
  else
    match analyze_directory files with
    | none => .noFiles
    | some r => .completed r

/-- Process exit code of each outcome: 1 for the two usage errors, 0 for
a normal return, 1 (uncaught exception) when the global section raised. -/
def exitCode : MainOutcome → Nat
  | .usageError => 1
  | .dirError => 1
  | .noFiles => 0
  | .completed r => match r.globalPart with | .ok _ => 0 | .error _ => 1

/-! ### Basic sum lemmas -/

/-- A sum of nonpositive integers is nonpositive. -/
theorem list_sum_nonpos {l : List Int} (h : ∀ x ∈ l, x ≤ 0) : l.sum ≤ 0 := by
  induction l with
  | nil => simp
  | cons a t ih =>
      have ha := h a (by simp)
      have ht := ih (fun x hx => h x (by simp [hx]))
      simp only [List.sum_cons]
      have := add_le_add ha ht
      simpa using this

/-- Every integer list sum splits into the sum of its strictly positive
and the sum of its strictly negative members; zeros contribute nothing. -/
theorem sum_eq_pos_add_neg (l : List Int) :
    l.sum = (l.filter (fun x => 0 < x)).sum + (l.filter (fun x => x < 0)).sum := by
  induction l with
  | nil => simp
  | cons a t ih =>
      by_cases hpos : 0 < a
      · have hneg : ¬ a < 0 := by linarith
        simp [List.filter_cons, hpos, hneg, List.sum_cons, ih]
        ring
      · by_cases hneg : a < 0
        · simp [List.filter_cons, hpos, hneg, List.sum_cons, ih]
          ring
        · have ha : a = 0 := le_antisymm (not_lt.mp hpos) (not_lt.mp hneg)
          simp [List.filter_cons, hpos, hneg, List.sum_cons, ih, ha]

/-! ### processRecords membership -/

/-- Membership in the sorted per-file summary: exactly the group keys,
each paired with its aggregate. -/
theorem mem_processRecords {df : List TradeRecord} {sym : String} {a : Agg} :
    (sym, a) ∈ processRecords df ↔ sym ∈ groupKeys df ∧ a = aggFor df sym := by
  unfold processRecords sortByNetDesc
  rw [(List.perm_insertionSort _ _).mem_iff, List.mem_map]
  constructor
  · rintro ⟨k, hk, hE⟩
    obtain ⟨rfl, rfl⟩ : k = sym ∧ aggFor df k = a := by
      constructor
      · exact congrArg Prod.fst hE
      · exact congrArg Prod.snd hE
    exact ⟨hk, rfl⟩
  · rintro ⟨hk, rfl⟩
    exact ⟨sym, hk, rfl⟩

/-- Claim C1: for every file's trade-record sequence and every instrument
group in it, the per-file aggregate satisfies: `total_profit` is the sum
of the strictly positive profits (hence nonnegative), `total_loss` the
sum of the strictly negative profits (hence nonpositive), zero-profit
trades contribute to neither, `net_profit` is the sum of all the group's
profits and equals `total_profit + total_loss`, and `trades` counts the
group's records. -/
theorem C1_per_file_aggregates (df : List TradeRecord) (sym : String) (a : Agg)
    (h : (sym, a) ∈ processRecords df) :
    a.total_profit
        = (((df.filter (fun r => r.instrument = sym)).map (fun r => r.profit)).filter
            (fun x => 0 < x)).sum
    ∧ 0 ≤ a.total_profit
    ∧ a.total_loss
        = (((df.filter (fun r => r.instrument = sym)).map (fun r => r.profit)).filter
            (fun x => x < 0)).sum
    ∧ a.total_loss ≤ 0
    ∧ a.net_profit
        = ((df.filter (fun r => r.instrument = sym)).map (fun r => r.profit)).sum
    ∧ a.net_profit = a.total_profit + a.total_loss
    ∧ a.trades = (df.filter (fun r => r.instrument = sym)).length := by
  obtain ⟨-, rfl⟩ := mem_processRecords.mp h
  refine ⟨rfl, ?_, rfl, ?_, rfl, ?_, ?_⟩
  · exact List.sum_nonneg (by
      intro x hx
      have := (List.mem_filter.mp hx).2
      have := of_decide_eq_true this
      linarith)
  · exact list_sum_nonpos (by
      intro x hx
      have := (List.mem_filter.mp hx).2
      have := of_decide_eq_true this
      linarith)
  · exact sum_eq_pos_add_neg _
  · simp [aggFor]

/-- Witness for C1 at the spec's worked scenario (file F1): the EURUSD
aggregate row `{100, -30, 70, 2}`. -/
theorem C1_per_file_aggregates_witness :
    ({ total_profit := 100, total_loss := -30, net_profit := 70,
       trades := 2 } : Agg).net_profit
        = ({ total_profit := 100, total_loss := -30, net_profit := 70,
             trades := 2 } : Agg).total_profit
          + ({ total_profit := 100, total_loss := -30, net_profit := 70,
               trades := 2 } : Agg).total_loss
    ∧ ({ total_profit := 100, total_loss := -30, net_profit := 70,
         trades := 2 } : Agg).trades
        = ([(⟨"EURUSD", 100⟩ : TradeRecord), ⟨"EURUSD", -30⟩,
            ⟨"GBPUSD", -50⟩].filter (fun r => r.instrument = "EURUSD")).length :=
  have h : (("EURUSD",
      ({ total_profit := 100, total_loss := -30, net_profit := 70,
         trades := 2 } : Agg)) ∈
      processRecords [⟨"EURUSD", 100⟩, ⟨"EURUSD", -30⟩, ⟨"GBPUSD", -50⟩]) := by
    decide
  have hc := C1_per_file_aggregates
    [⟨"EURUSD", 100⟩, ⟨"EURUSD", -30⟩, ⟨"GBPUSD", -50⟩] "EURUSD"
    { total_profit := 100, total_loss := -30, net_profit := 70, trades := 2 } h
  ⟨hc.2.2.2.2.2.1, hc.2.2.2.2.2.2⟩

/-! ### idxmax / idxmin lemmas -/

/-- The running maximum of the `idxmaxNet` fold is one of the candidates. -/
theorem foldl_pickMax_mem :
    ∀ (xs : List (String × Agg)) (x : String × Agg),
      xs.foldl (fun best y =>
        if best.2.net_profit < y.2.net_profit then y else best) x ∈ x :: xs
  | [], _ => by simp
  | y :: ys, x => by
      have ih := foldl_pickMax_mem ys
        (if x.2.net_profit < y.2.net_profit then y else x)
      simp only [List.foldl_cons]
      rcases List.mem_cons.mp ih with h | h
      · by_cases hc : x.2.net_profit < y.2.net_profit
        · rw [if_pos hc] at h ⊢
          rw [h]
          simp
        · rw [if_neg hc] at h ⊢
          rw [h]
          simp
      · simp [h]

/-- The running maximum of the `idxmaxNet` fold dominates every candidate. -/
theorem foldl_pickMax_le :
    ∀ (xs : List (String × Agg)) (x : String × Agg),
      ∀ z ∈ x :: xs,
        z.2.net_profit ≤ (xs.foldl (fun best y =>
          if best.2.net_profit < y.2.net_profit then y else best) x).2.net_profit
  | [], x => by simp
  | y :: ys, x => by
      intro z hz
      have ih := foldl_pickMax_le ys
        (if x.2.net_profit < y.2.net_profit then y else x)
      simp only [List.foldl_cons]
      have hx : x.2.net_profit
          ≤ (if x.2.net_profit < y.2.net_profit then y else x).2.net_profit := by
        by_cases hc : x.2.net_profit < y.2.net_profit
        · rw [if_pos hc]; exact le_of_lt hc
        · rw [if_neg hc]
      have hy : y.2.net_profit
          ≤ (if x.2.net_profit < y.2.net_profit then y else x).2.net_profit := by
        by_cases hc : x.2.net_profit < y.2.net_profit
        · rw [if_pos hc]
        · rw [if_neg hc]; exact le_of_not_lt hc
      have hhead := ih _ (List.mem_cons_self _ _)
      rcases List.mem_cons.mp hz with rfl | hz
      · exact le_trans hx hhead
      · rcases List.mem_cons.mp hz with rfl | hz
        · exact le_trans hy hhead
        · exact ih z (List.mem_cons_of_mem _ hz)

/-- The running minimum of the `idxminNet` fold is one of the candidates. -/
theorem foldl_pickMin_mem :
    ∀ (xs : List (String × Agg)) (x : String × Agg),
      xs.foldl (fun best y =>
        if y.2.net_profit < best.2.net_profit then y else best) x ∈ x :: xs
  | [], _ => by simp
  | y :: ys, x => by
      have ih := foldl_pickMin_mem ys
        (if y.2.net_profit < x.2.net_profit then y else x)
      simp only [List.foldl_cons]
      rcases List.mem_cons.mp ih with h | h
      · by_cases hc : y.2.net_profit < x.2.net_profit
        · rw [if_pos hc] at h ⊢
          rw [h]
          simp
        · rw [if_neg hc] at h ⊢
          rw [h]
          simp
      · simp [h]

/-- The running minimum of the `idxminNet` fold is below every candidate. -/
theorem foldl_pickMin_le :
    ∀ (xs : List (String × Agg)) (x : String × Agg),
      ∀ z ∈ x :: xs,
        (xs.foldl (fun best y =>
          if y.2.net_profit < best.2.net_profit then y else best) x).2.net_profit
          ≤ z.2.net_profit
  | [], x => by simp
  | y :: ys, x => by
      intro z hz
      have ih := foldl_pickMin_le ys
        (if y.2.net_profit < x.2.net_profit then y else x)
      simp only [List.foldl_cons]
      have hx : (if y.2.net_profit < x.2.net_profit then y else x).2.net_profit
          ≤ x.2.net_profit := by
        by_cases hc : y.2.net_profit < x.2.net_profit
        · rw [if_pos hc]; exact le_of_lt hc
        · rw [if_neg hc]
      have hy : (if y.2.net_profit < x.2.net_profit then y else x).2.net_profit
          ≤ y.2.net_profit := by
        by_cases hc : y.2.net_profit < x.2.net_profit
        · rw [if_pos hc]
        · rw [if_neg hc]; exact le_of_not_lt hc
      have hhead := ih _ (List.mem_cons_self _ _)
      rcases List.mem_cons.mp hz with rfl | hz
      · exact le_trans hhead hx
      · rcases List.mem_cons.mp hz with rfl | hz
        · exact le_trans hhead hy
        · exact ih z (List.mem_cons_of_mem _ hz)

/-- `idxmaxNet` returns a member whose `net_profit` dominates the list. -/
theorem idxmaxNet_spec {l : List (String × Agg)} {m : String × Agg}
    (h : idxmaxNet l = some m) :
    m ∈ l ∧ ∀ z ∈ l, z.2.net_profit ≤ m.2.net_profit := by
  match l with
  | [] => cases h
  | x :: xs =>
      unfold idxmaxNet at h
      obtain rfl : xs.foldl _ x = m := Option.some.inj h
      exact ⟨foldl_pickMax_mem xs x, foldl_pickMax_le xs x⟩

/-- `idxminNet` returns a member whose `net_profit` is below the list. -/
theorem idxminNet_spec {l : List (String × Agg)} {m : String × Agg}
    (h : idxminNet l = some m) :
    m ∈ l ∧ ∀ z ∈ l, m.2.net_profit ≤ z.2.net_profit := by
  match l with
  | [] => cases h
  | x :: xs =>
      unfold idxminNet at h
      obtain rfl : xs.foldl _ x = m := Option.some.inj h
      exact ⟨foldl_pickMin_mem xs x, foldl_pickMin_le xs x⟩

/-- `idxmaxNet` is `none` exactly on the empty summary. -/
theorem idxmaxNet_eq_none_iff {l : List (String × Agg)} :
    idxmaxNet l = none ↔ l = [] := by
  cases l <;> simp [idxmaxNet]

/-- `idxminNet` is `none` exactly on the empty summary. -/
theorem idxminNet_eq_none_iff {l : List (String × Agg)} :
    idxminNet l = none ↔ l = [] := by
  cases l <;> simp [idxminNet]

/-! ### process_file structure -/

deriving instance DecidableEq for Except

/-- Case analysis of the source's
`(top_loss_symbol, top_loss_value) if top_loss_symbol else None`. -/
theorem topLossAnatomy (loss : List (String × Agg)) (tl : Option (String × Int))
    (htl : tl = (match idxminNet loss with
                 | none => none
                 | some w => if w.1 = "" then none else some (w.1, w.2.net_profit))) :
    (tl = none
      ∧ (idxminNet loss = none ∨ ∃ w, idxminNet loss = some w ∧ w.1 = ""))
    ∨ (∃ w, idxminNet loss = some w ∧ w.1 ≠ ""
        ∧ tl = some (w.1, w.2.net_profit)) := by
  rcases hmin : idxminNet loss with - | w
  · rw [hmin] at htl
    have htl' : tl = none := htl
    exact Or.inl ⟨htl', Or.inl rfl⟩
  · rw [hmin] at htl
    have htl' : tl = if w.1 = "" then none
        else some (w.1, w.2.net_profit) := htl
    by_cases hw : w.1 = ""
    · rw [if_pos hw] at htl'
      exact Or.inl ⟨htl', Or.inr ⟨w, rfl, hw⟩⟩
    · rw [if_neg hw] at htl'
      exact Or.inr ⟨w, rfl, hw, htl'⟩

/-- Anatomy of a successful `process_file` call. -/
theorem process_file_ok {f : FileInput} {r : FileResult}
    (h : process_file f = .ok r) :
    ∃ cols rows,
      f.read = .table cols rows
      ∧ requiredCols.filter (fun c => ¬ c ∈ cols) = []
      ∧ r.filename = f.filename
      ∧ r.summary = processRecords rows.dropLast
      ∧ (∃ top, idxmaxNet r.summary = some top
          ∧ r.top_profit = (top.1, top.2.net_profit))
      ∧ ((r.top_loss = none
            ∧ (idxminNet (r.summary.filter (fun p => p.2.net_profit < 0)) = none
               ∨ ∃ w, idxminNet (r.summary.filter (fun p => p.2.net_profit < 0))
                        = some w ∧ w.1 = ""))
         ∨ (∃ w, idxminNet (r.summary.filter (fun p => p.2.net_profit < 0))
                   = some w ∧ w.1 ≠ ""
               ∧ r.top_loss = some (w.1, w.2.net_profit))) := by
  obtain ⟨fname, fread⟩ := f
  cases fread with
  | failure => exact absurd h (by simp [process_file])
  | table cols rows =>
      refine ⟨cols, rows, rfl, ?_⟩
      simp only [process_file] at h
      split at h
      next hne => exact absurd h (by simp)
      next hne =>
        split at h
        next hmax => exact absurd h (by simp)
        next top hmax =>
          obtain rfl : _ = r := Except.ok.inj h
          refine ⟨not_not.mp (by simpa using hne), rfl, rfl,
            ⟨top, hmax, rfl⟩, ?_⟩
          exact topLossAnatomy _ _ rfl

/-- Claim C5 fails on the code: in the file `a.xlsx` whose single data
row is the trade `("", -5)` (plus a discarded totals row), processing
succeeds, the summary contains an instrument with strictly negative net
profit, yet no worst instrument is reported: the source's Python
truthiness test `if top_loss_symbol` treats the empty-string instrument
identifier as falsy. -/
theorem C5_counterexample :
    process_file ⟨"a.xlsx", .table ["交易品种", "盈利"]
        [⟨"", -5⟩, ⟨"TOTAL", 0⟩]⟩
      = .ok { filename := "a.xlsx"
              summary := [("", { total_profit := 0, total_loss := -5,
                                 net_profit := -5, trades := 1 })]
              top_profit := ("", -5)
              top_loss := none }
    ∧ ((-5 : Int) < 0) := by
  refine ⟨by decide, by decide⟩

/-- Claim C5 (amended): for every successfully processed file, the best
instrument's net profit dominates the summary; a reported worst
instrument has strictly negative net profit, a non-empty identifier, and
the minimal net profit of the summary; if no instrument has negative net
profit then no worst is reported; and when no worst is reported, either
no instrument has negative net profit or the instrument selected by
`idxmin` among the negative ones has the empty string as identifier
(Python truthiness of the source's `if top_loss_symbol`). -/
theorem C5_amended_best_worst (f : FileInput) (r : FileResult)
    (h : process_file f = .ok r) :
    (∀ p ∈ r.summary, p.2.net_profit ≤ r.top_profit.2)
    ∧ (∀ s v, r.top_loss = some (s, v) →
        v < 0 ∧ s ≠ "" ∧ ∀ p ∈ r.summary, v ≤ p.2.net_profit)
    ∧ ((∀ p ∈ r.summary, 0 ≤ p.2.net_profit) → r.top_loss = none)
    ∧ (r.top_loss = none →
        (∀ p ∈ r.summary, 0 ≤ p.2.net_profit)
        ∨ ∃ p ∈ r.summary, p.1 = "" ∧ p.2.net_profit < 0) := by
  obtain ⟨cols, rows, -, -, -, -, ⟨top, htop, htp⟩, hanat⟩ := process_file_ok h
  refine ⟨?_, ?_, ?_, ?_⟩
  · intro p hp
    rw [htp]
    exact (idxmaxNet_spec htop).2 p hp
  · intro s v hsv
    rcases hanat with ⟨hnone, -⟩ | ⟨w, hmin, hw, heq⟩
    · rw [hnone] at hsv; cases hsv
    · rw [heq] at hsv
      obtain ⟨rfl, rfl⟩ : w.1 = s ∧ w.2.net_profit = v := by
        have := Option.some.inj hsv
        exact ⟨congrArg Prod.fst this, congrArg Prod.snd this⟩
      have hwmem := (idxminNet_spec hmin).1
      have hwneg : w.2.net_profit < 0 :=
        of_decide_eq_true (List.mem_filter.mp hwmem).2
      refine ⟨hwneg, hw, ?_⟩
      intro p hp
      by_cases hpneg : p.2.net_profit < 0
      · exact (idxminNet_spec hmin).2 p
          (List.mem_filter.mpr ⟨hp, decide_eq_true hpneg⟩)
      · exact le_trans (le_of_lt hwneg) (le_of_not_lt hpneg)
  · intro hall
    have hfilter : r.summary.filter (fun p => p.2.net_profit < 0) = [] := by
      rw [List.filter_eq_nil_iff]
      intro p hp
      simp only [decide_eq_true_eq]
      exact not_lt.mpr (hall p hp)
    rcases hanat with ⟨hnone, -⟩ | ⟨w, hmin, -, -⟩
    · exact hnone
    · rw [hfilter] at hmin
      cases hmin
  · intro hnone
    rcases hanat with ⟨-, hmin⟩ | ⟨w, hmin, hw, heq⟩
    · rcases hmin with hmin | ⟨w, hmin, hw⟩
      · left
        intro p hp
        by_contra hneg
        have hmem : p ∈ r.summary.filter (fun p => p.2.net_profit < 0) :=
          List.mem_filter.mpr ⟨hp, decide_eq_true (not_le.mp hneg)⟩
        rw [idxminNet_eq_none_iff.mp hmin] at hmem
        cases hmem
      · right
        have hwmem := (idxminNet_spec hmin).1
        exact ⟨w, (List.mem_filter.mp hwmem).1, hw,
          of_decide_eq_true (List.mem_filter.mp hwmem).2⟩
    · rw [heq] at hnone; cases hnone

/-- Witness for the amended C5 at a one-instrument profitable file:
best is `("A", 1)` and no worst is reported. -/
theorem C5_amended_best_worst_witness :
    (∀ p ∈ [("A", ({ total_profit := 1, total_loss := 0, net_profit := 1,
                     trades := 1 } : Agg))], p.2.net_profit ≤ (1 : Int))
    ∧ (∀ s v, (none : Option (String × Int)) = some (s, v) →
        v < 0 ∧ s ≠ ""
        ∧ ∀ p ∈ [("A", ({ total_profit := 1, total_loss := 0, net_profit := 1,
                          trades := 1 } : Agg))], v ≤ p.2.net_profit)
    ∧ ((∀ p ∈ [("A", ({ total_profit := 1, total_loss := 0, net_profit := 1,
                        trades := 1 } : Agg))], 0 ≤ p.2.net_profit) →
        (none : Option (String × Int)) = none)
    ∧ ((none : Option (String × Int)) = none →
        (∀ p ∈ [("A", ({ total_profit := 1, total_loss := 0, net_profit := 1,
                         trades := 1 } : Agg))], 0 ≤ p.2.net_profit)
        ∨ ∃ p ∈ [("A", ({ total_profit := 1, total_loss := 0, net_profit := 1,
                          trades := 1 } : Agg))], p.1 = "" ∧ p.2.net_profit < 0) :=
  C5_amended_best_worst
    ⟨"w.xlsx", .table ["交易品种", "盈利"] [⟨"A", 1⟩, ⟨"TOTAL", 0⟩]⟩
    { filename := "w.xlsx"
      summary := [("A", { total_profit := 1, total_loss := 0, net_profit := 1,
                          trades := 1 })]
      top_profit := ("A", 1)
      top_loss := none }
    (by decide)

/-- Claim C6 fails on the code: a file with the required columns whose
record set is empty after discarding the trailing totals row does NOT
yield an empty aggregate set — `summary['net_profit'].idxmax()` raises
`ValueError` on the empty summary, so `process_file` raises, and
`analyze_directory` treats the file as a per-file error. -/
theorem C6_counterexample :
    process_file ⟨"e.xlsx", .table ["交易品种", "盈利"] [⟨"TOTAL", 0⟩]⟩
      = .error .emptyArgmax := by
  decide

/-- Claim C6 (amended): for every file that reads successfully, has the
required columns, and has an empty record set after discarding the
trailing totals row, `process_file` raises the `ValueError` of `idxmax`
on an empty series; in every run the exception is caught at the
per-file boundary and the file is reported as a per-file error (the run
continues — see C7). -/
theorem C6_amended_empty_file_raises (f : FileInput) (cols : List String)
    (rows : List TradeRecord) (hread : f.read = .table cols rows)
    (hcols : requiredCols.filter (fun c => ¬ c ∈ cols) = [])
    (hempty : rows.dropLast = []) :
    process_file f = .error .emptyArgmax := by
  unfold process_file
  rw [hread]
  simp [hcols, hempty, processRecords, sortByNetDesc, groupKeys, idxmaxNet]
  intro x hx
  have := List.filter_eq_nil_iff.mp hcols x hx
  simpa using this

/-- Witness for the amended C6: the concrete totals-row-only file. -/
theorem C6_amended_empty_file_raises_witness :
    process_file ⟨"e2.xlsx", .table ["交易品种", "盈利"] [⟨"TOTAL", 0⟩]⟩
      = .error .emptyArgmax :=
  C6_amended_empty_file_raises
    ⟨"e2.xlsx", .table ["交易品种", "盈利"] [⟨"TOTAL", 0⟩]⟩
    ["交易品种", "盈利"] [⟨"TOTAL", 0⟩] rfl (by decide) rfl

/-! ### lookup lemmas -/

/-- A successful lookup exhibits a member. -/
theorem lookupSym_some_mem {l : List (String × α)} {sym : String} {v : α}
    (h : lookupSym l sym = some v) : (sym, v) ∈ l := by
  induction l with
  | nil => cases h
  | cons p rest ih =>
      obtain ⟨s, w⟩ := p
      unfold lookupSym at h
      by_cases hs : s = sym
      · rw [if_pos hs] at h
        obtain rfl := Option.some.inj h
        rw [hs]
        exact List.mem_cons_self _ _
      · rw [if_neg hs] at h
        exact List.mem_cons_of_mem _ (ih h)

/-- Lookup fails exactly when the key is absent. -/
theorem lookupSym_eq_none_iff {l : List (String × α)} {sym : String} :
    lookupSym l sym = none ↔ sym ∉ l.map Prod.fst := by
  induction l with
  | nil => simp [lookupSym]
  | cons p rest ih =>
      obtain ⟨s, w⟩ := p
      unfold lookupSym
      by_cases hs : s = sym
      · rw [if_pos hs]
        simp [hs]
      · rw [if_neg hs]
        rw [ih]
        simp only [List.map_cons, List.mem_cons]
        constructor
        · intro hnot hmem
          rcases hmem with hh | hh
          · exact hs hh.symm
          · exact hnot hh
        · intro hnot hmem
          exact hnot (Or.inr hmem)

/-- Over a unique-keyed association list, lookup agrees with membership. -/
theorem lookupSym_eq_some_iff_of_nodup {l : List (String × α)} {sym : String}
    {v : α} (hnd : (l.map Prod.fst).Nodup) :
    lookupSym l sym = some v ↔ (sym, v) ∈ l := by
  constructor
  · exact lookupSym_some_mem
  · intro hmem
    induction l with
    | nil => cases hmem
    | cons p rest ih =>
        obtain ⟨s, w⟩ := p
        simp only [List.map_cons, List.nodup_cons] at hnd
        rcases List.mem_cons.mp hmem with hp | hp
        · obtain ⟨rfl, rfl⟩ : s = sym ∧ w = v := by
            constructor
            · exact (congrArg Prod.fst hp).symm
            · exact (congrArg Prod.snd hp).symm
          unfold lookupSym
          rw [if_pos rfl]
        · have hs : s ≠ sym := by
            intro hs
            apply hnd.1
            rw [hs]
            exact List.mem_map.mpr ⟨(sym, v), hp, rfl⟩
          unfold lookupSym
          rw [if_neg hs]
          exact ih hnd.2 hp

/-- Lookup over a unique-keyed list is invariant under permutation. -/
theorem lookupSym_perm {l₁ l₂ : List (String × α)} (hp : l₁.Perm l₂)
    (hnd : (l₁.map Prod.fst).Nodup) (sym : String) :
    lookupSym l₁ sym = lookupSym l₂ sym := by
  have hnd₂ : (l₂.map Prod.fst).Nodup := ((hp.map Prod.fst).nodup_iff).mp hnd
  match h₁ : lookupSym l₁ sym with
  | some v =>
      exact ((lookupSym_eq_some_iff_of_nodup hnd₂).mpr
        (hp.mem_iff.mp (lookupSym_some_mem h₁))).symm
  | none =>
      have : sym ∉ l₂.map Prod.fst := by
        intro hmem
        exact lookupSym_eq_none_iff.mp h₁
          ((hp.map Prod.fst).mem_iff.mpr hmem)
      exact (lookupSym_eq_none_iff.mpr this).symm

/-- Lookup in a table built by mapping over a key list. -/
theorem lookupSym_map_keys (keys : List String) (g : String → α) (sym : String) :
    lookupSym (keys.map (fun k => (k, g k))) sym
      = if sym ∈ keys then some (g sym) else none := by
  induction keys with
  | nil => simp [lookupSym]
  | cons k rest ih =>
      by_cases hk : k = sym
      · subst hk
        simp [lookupSym]
      · simp only [List.map_cons, lookupSym, if_neg hk, ih]
        by_cases hmem : sym ∈ rest
        · rw [if_pos hmem, if_pos (List.mem_cons_of_mem _ hmem)]
        · rw [if_neg hmem, if_neg (by
            intro hc
            rcases List.mem_cons.mp hc with hc | hc
            · exact hk hc.symm
            · exact hmem hc)]

/-! ### groupSum and mergeSummaries -/

/-- The keys of `groupSum` are the distinct input keys. -/
theorem groupSum_keys (entries : List (String × Agg)) :
    (groupSum entries).map Prod.fst = (entries.map (fun p => p.1)).dedup := by
  unfold groupSum
  rw [List.map_map]
  exact List.map_id' _

/-- The keys of `groupSum` have no duplicates. -/
theorem groupSum_keys_nodup (entries : List (String × Agg)) :
    ((groupSum entries).map Prod.fst).Nodup := by
  rw [groupSum_keys]
  exact List.nodup_dedup _

/-- Lookup in the grouped-and-summed table: present exactly for
instruments occurring among the stacked rows, with the component-wise
sum of their rows. -/
theorem lookupSym_groupSum (entries : List (String × Agg)) (sym : String) :
    lookupSym (groupSum entries) sym
      = if sym ∈ entries.map (fun p => p.1)
        then some (sumAggs ((entries.filter (fun p => p.1 = sym)).map
                    (fun p => p.2)))
        else none := by
  unfold groupSum
  rw [lookupSym_map_keys]
  by_cases hmem : sym ∈ entries.map (fun p => p.1)
  · rw [if_pos (List.mem_dedup.mpr hmem), if_pos hmem]
  · rw [if_neg (fun hc => hmem (List.mem_dedup.mp hc)), if_neg hmem]

/-- `mergeSummaries` succeeds exactly on a non-empty collection of
summaries, and then lookup in its (re-sorted) result equals lookup in
the grouped sum of the stacked rows. -/
theorem mergeSummaries_ok {ls : List (List (String × Agg))}
    {gs : List (String × Agg)} (h : mergeSummaries ls = .ok gs) :
    ls ≠ [] ∧ gs = sortByNetDesc (groupSum ls.flatten)
    ∧ ∀ sym, lookupSym gs sym = lookupSym (groupSum ls.flatten) sym := by
  unfold mergeSummaries pdConcat at h
  by_cases hne : ls = []
  · rw [if_pos hne] at h
    cases h
  · rw [if_neg hne] at h
    have hgs : gs = sortByNetDesc (groupSum ls.flatten) :=
      (Except.ok.inj h).symm
    refine ⟨hne, hgs, ?_⟩
    intro sym
    rw [hgs]
    exact (lookupSym_perm (List.perm_insertionSort _ _)
      (((List.perm_insertionSort _ _).map Prod.fst).nodup_iff.mpr
        (groupSum_keys_nodup _)) sym)

/-! ### The per-file loop -/

/-- The files of a run that process successfully, in processing order. -/
def successes (files : List FileInput) : List FileResult :=
  files.filterMap (fun f => (process_file f).toOption)

/-- The collected `all_results` are exactly the successful files'
results, in order, appended to the initial state. -/
theorem scan_foldl_all_results (files : List FileInput) (st : ScanState) :
    (files.foldl scanStep st).all_results
      = st.all_results ++ files.filterMap (fun f => (process_file f).toOption) := by
  induction files generalizing st with
  | nil => simp
  | cons f rest ih =>
      simp only [List.foldl_cons, List.filterMap_cons]
      cases hpf : process_file f with
      | ok r =>
          rw [ih]
          simp [scanStep, hpf, Except.toOption]
      | error e =>
          rw [ih]
          simp [scanStep, hpf, Except.toOption]

/-- The reported per-file errors are exactly the failing files' names,
in order, appended to the initial state. -/
theorem scan_foldl_errors (files : List FileInput) (st : ScanState) :
    (files.foldl scanStep st).errors
      = st.errors ++ (files.filter (fun f => !(process_file f).isOk)).map
          (fun f => f.filename) := by
  induction files generalizing st with
  | nil => simp
  | cons f rest ih =>
      simp only [List.foldl_cons, List.filter_cons]
      cases hpf : process_file f with
      | ok r =>
          rw [ih]
          simp [scanStep, hpf, Except.isOk, Except.toBool]
      | error e =>
          rw [ih]
          simp [scanStep, hpf, Except.isOk, Except.toBool]

/-- `symbol_records` is the fold of the successful summaries over the
initial state. -/
theorem scan_foldl_symbol_records (files : List FileInput) (st : ScanState) :
    (files.foldl scanStep st).symbol_records
      = (files.filterMap (fun f => (process_file f).toOption)).foldl
          (fun m r => addSummaryRecords m r.summary) st.symbol_records := by
  induction files generalizing st with
  | nil => simp
  | cons f rest ih =>
      simp only [List.foldl_cons, List.filterMap_cons]
      cases hpf : process_file f with
      | ok r =>
          rw [ih]
          simp [scanStep, hpf, Except.toOption]
      | error e =>
          rw [ih]
          simp [scanStep, hpf, Except.toOption]

/-- `scanFiles` in terms of the three characterizations. -/
theorem scanFiles_spec (files : List FileInput) :
    (scanFiles files).all_results = successes files
    ∧ (scanFiles files).errors
        = (files.filter (fun f => !(process_file f).isOk)).map (fun f => f.filename)
    ∧ (scanFiles files).symbol_records
        = (successes files).foldl (fun m r => addSummaryRecords m r.summary) [] := by
  refine ⟨?_, ?_, ?_⟩
  · rw [scanFiles, scan_foldl_all_results]
    rfl
  · rw [scanFiles, scan_foldl_errors]
    rfl
  · rw [scanFiles, scan_foldl_symbol_records]
    rfl

/-! ### globalAnalysis structure -/

/-- `mergeSummaries` on a non-empty collection. -/
theorem mergeSummaries_eq_ok {ls : List (List (String × Agg))} (hne : ls ≠ []) :
    mergeSummaries ls = .ok (sortByNetDesc (groupSum ls.flatten)) := by
  unfold mergeSummaries pdConcat
  rw [if_neg hne]

/-- Anatomy of a successful `globalAnalysis` call. -/
theorem globalAnalysis_ok {st : ScanState} {g : GlobalPart}
    (h : globalAnalysis st = .ok g) :
    st.all_results ≠ []
    ∧ g.global_summary
        = sortByNetDesc (groupSum ((st.all_results.map (fun r => r.summary)).flatten))
    ∧ (∀ sym, lookupSym g.global_summary sym
        = lookupSym (groupSum ((st.all_results.map (fun r => r.summary)).flatten)) sym)
    ∧ (∃ top, idxmaxNet g.global_summary = some top
        ∧ g.global_top_profit = (top.1, top.2.net_profit))
    ∧ (∃ bot, idxminNet g.global_summary = some bot
        ∧ g.global_top_loss = (bot.1, bot.2.net_profit))
    ∧ g.profitable_symbols = sortProfitDesc (classifySymbols st.symbol_records).1
    ∧ g.loss_symbols = sortLossAsc (classifySymbols st.symbol_records).2 := by
  unfold globalAnalysis at h
  match hms : mergeSummaries (st.all_results.map (fun r => r.summary)) with
  | .error e =>
      rw [hms] at h
      exact absurd (h : (Except.error e : Except GlobalError GlobalPart) = .ok g)
        (by simp)
  | .ok gs =>
      rw [hms] at h
      obtain ⟨hne, hgs, hlook⟩ := mergeSummaries_ok hms
      have hne' : st.all_results ≠ [] := by
        intro hc
        exact hne (by rw [hc]; rfl)
      have h' : (match idxmaxNet gs, idxminNet gs with
          | some top, some bot =>
              Except.ok { global_summary := gs
                          global_top_profit := (top.1, top.2.net_profit)
                          global_top_loss := (bot.1, bot.2.net_profit)
                          profitable_symbols :=
                            sortProfitDesc (classifySymbols st.symbol_records).1
                          loss_symbols :=
                            sortLossAsc (classifySymbols st.symbol_records).2 }
          | _, _ => Except.error GlobalError.emptyArgmax) = Except.ok g := h
      match hmax : idxmaxNet gs, hmin : idxminNet gs with
      | some top, some bot =>
          rw [hmax, hmin] at h'
          obtain rfl : _ = g := Except.ok.inj h'
          exact ⟨hne', hgs, hlook, ⟨top, hmax, rfl⟩, ⟨bot, hmin, rfl⟩, rfl, rfl⟩
      | none, hb =>
          rw [hmax] at h'
          exact absurd (h' : (Except.error GlobalError.emptyArgmax
            : Except GlobalError GlobalPart) = .ok g) (by simp)
      | some top, none =>
          rw [hmax, hmin] at h'
          exact absurd (h' : (Except.error GlobalError.emptyArgmax
            : Except GlobalError GlobalPart) = .ok g) (by simp)

/-! ### C3, C4: the global summary -/

/-- A two-file example run used to witness the global-summary claims. -/
def exFiles : List FileInput :=
  [⟨"f1.xlsx", .table ["交易品种", "盈利"]
      [⟨"EURUSD", 100⟩, ⟨"EURUSD", -30⟩, ⟨"GBPUSD", -50⟩, ⟨"TOTAL", 20⟩]⟩,
   ⟨"f2.xlsx", .table ["交易品种", "盈利"]
      [⟨"EURUSD", -20⟩, ⟨"GBPUSD", 10⟩, ⟨"TOTAL", -10⟩]⟩]

/-- The global section's output on `exFiles`. -/
def exGlobal : GlobalPart :=
  { global_summary :=
      [("EURUSD", { total_profit := 100, total_loss := -50, net_profit := 50,
                    trades := 3 }),
       ("GBPUSD", { total_profit := 10, total_loss := -50, net_profit := -40,
                    trades := 2 })]
    global_top_profit := ("EURUSD", 50)
    global_top_loss := ("GBPUSD", -40)
    profitable_symbols := []
    loss_symbols := [] }

/-- Claim C3: once at least one file processed successfully, the global
aggregate of every instrument is the component-wise sum of that
instrument's rows across exactly the successfully processed files'
summaries (so in particular its global trade count is the sum of its
per-file trade counts), and an instrument appearing in no processed
file's summary is absent from the global summary (no zero-fill);
moreover the collected results are exactly the successfully processed
files', in order. -/
theorem C3_global_componentwise_sum (files : List FileInput) (g : GlobalPart)
    (h : globalAnalysis (scanFiles files) = .ok g) (sym : String) :
    (scanFiles files).all_results = successes files
    ∧ lookupSym g.global_summary sym
        = (if sym ∈ (((successes files).map (fun r => r.summary)).flatten).map
                (fun p => p.1)
           then some (sumAggs
              (((((successes files).map (fun r => r.summary)).flatten).filter
                  (fun p => p.1 = sym)).map (fun p => p.2)))
           else none) := by
  obtain ⟨hres, -, -⟩ := scanFiles_spec files
  obtain ⟨-, -, hlook, -, -, -, -⟩ := globalAnalysis_ok h
  refine ⟨hres, ?_⟩
  rw [hlook sym, lookupSym_groupSum, hres]

/-- Witness for C3 on `exFiles`: EURUSD's global row is the field-wise
sum of its two per-file rows (trades 2 + 1 = 3), and an instrument that
traded in no file is absent from the global summary. -/
theorem C3_global_componentwise_sum_witness :
    (scanFiles exFiles).all_results = successes exFiles
    ∧ lookupSym exGlobal.global_summary "EURUSD"
        = some { total_profit := 100, total_loss := -50, net_profit := 50,
                 trades := 3 }
    ∧ lookupSym exGlobal.global_summary "USDJPY" = none := by
  have hE := C3_global_componentwise_sum exFiles exGlobal (by decide) "EURUSD"
  have hU := C3_global_componentwise_sum exFiles exGlobal (by decide) "USDJPY"
  refine ⟨hE.1, ?_, ?_⟩
  · rw [hE.2]; decide
  · rw [hU.2]; decide

/-- Claim C4 fails on the code: the global worst instrument is NOT
selected "only among instruments with negative global net profit" as the
per-file step does — line 116 of the source takes an unconditional
`idxmin`.  In a run whose only instrument has global net profit +5 (no
instrument is negative), a global worst is still reported, namely that
profitable instrument. -/
theorem C4_counterexample :
    (globalAnalysis (scanFiles
        [⟨"c4.xlsx", .table ["交易品种", "盈利"] [⟨"A", 5⟩, ⟨"TOTAL", 0⟩]⟩])).map
      (fun g => (g.global_top_loss,
                 g.global_summary.all (fun p => 0 ≤ p.2.net_profit)))
      = .ok (("A", 5), true) := by
  decide

/-- Claim C4 (amended): the global best is the instrument with maximum
global net profit, as per file; but the global worst is the instrument
with MINIMUM global net profit over all instruments, with no negativity
filter: it is always present when the global summary is non-empty, even
when every global net profit is nonnegative. -/
theorem C4_amended_global_best_worst (st : ScanState) (g : GlobalPart)
    (h : globalAnalysis st = .ok g) :
    (∃ p ∈ g.global_summary, g.global_top_profit = (p.1, p.2.net_profit)
        ∧ ∀ q ∈ g.global_summary, q.2.net_profit ≤ p.2.net_profit)
    ∧ (∃ p ∈ g.global_summary, g.global_top_loss = (p.1, p.2.net_profit)
        ∧ ∀ q ∈ g.global_summary, p.2.net_profit ≤ q.2.net_profit) := by
  obtain ⟨-, -, -, ⟨top, hmax, htp⟩, ⟨bot, hmin, hbl⟩, -, -⟩ := globalAnalysis_ok h
  exact ⟨⟨top, (idxmaxNet_spec hmax).1, htp, (idxmaxNet_spec hmax).2⟩,
         ⟨bot, (idxminNet_spec hmin).1, hbl, (idxminNet_spec hmin).2⟩⟩

/-- Witness for the amended C4 on the one-file all-profitable run: the
global worst is reported as `("A", 5)` although nothing is negative. -/
theorem C4_amended_global_best_worst_witness :
    (∃ p ∈ [("A", ({ total_profit := 5, total_loss := 0, net_profit := 5,
                     trades := 1 } : Agg))],
        (("A", (5 : Int))) = (p.1, p.2.net_profit)
        ∧ ∀ q ∈ [("A", ({ total_profit := 5, total_loss := 0, net_profit := 5,
                          trades := 1 } : Agg))],
            q.2.net_profit ≤ p.2.net_profit)
    ∧ (∃ p ∈ [("A", ({ total_profit := 5, total_loss := 0, net_profit := 5,
                       trades := 1 } : Agg))],
        (("A", (5 : Int))) = (p.1, p.2.net_profit)
        ∧ ∀ q ∈ [("A", ({ total_profit := 5, total_loss := 0, net_profit := 5,
                          trades := 1 } : Agg))],
            p.2.net_profit ≤ q.2.net_profit) :=
  C4_amended_global_best_worst
    (scanFiles [⟨"c4.xlsx", .table ["交易品种", "盈利"] [⟨"A", 5⟩, ⟨"TOTAL", 0⟩]⟩])
    { global_summary :=
        [("A", { total_profit := 5, total_loss := 0, net_profit := 5,
                 trades := 1 })]
      global_top_profit := ("A", 5)
      global_top_loss := ("A", 5)
      profitable_symbols := []
      loss_symbols := [] }
    (by decide)

/-! ### C8: order independence of the global merge -/

/-- `sumAggs` only depends on the multiset of rows. -/
theorem sumAggs_perm {l₁ l₂ : List Agg} (hp : l₁.Perm l₂) :
    sumAggs l₁ = sumAggs l₂ := by
  unfold sumAggs
  rw [(hp.map (fun a => a.total_profit)).sum_eq,
      (hp.map (fun a => a.total_loss)).sum_eq,
      (hp.map (fun a => a.net_profit)).sum_eq,
      (hp.map (fun a => a.trades)).sum_eq]

/-- Claim C8: the global merge is order-independent — for any two
collections of per-file summaries that are permutations of one another,
the merged global table assigns every instrument the same aggregate row
(all four fields), and raises on one exactly when it raises on the
other. -/
theorem C8_merge_order_independent (s₁ s₂ : List (List (String × Agg)))
    (hp : s₁.Perm s₂) (sym : String) :
    (mergeSummaries s₁).toOption.bind (fun gs => lookupSym gs sym)
      = (mergeSummaries s₂).toOption.bind (fun gs => lookupSym gs sym)
    ∧ ((mergeSummaries s₁).isOk ↔ (mergeSummaries s₂).isOk) := by
  by_cases h1 : s₁ = []
  · have h2 : s₂ = [] := ((h1 ▸ hp).symm).eq_nil
    rw [h1, h2]
    exact ⟨rfl, Iff.rfl⟩
  · have h2 : s₂ ≠ [] := by
      intro hc
      exact h1 (hc ▸ hp).eq_nil
    rw [mergeSummaries_eq_ok h1, mergeSummaries_eq_ok h2]
    refine ⟨?_, Iff.rfl⟩
    simp only [Except.toOption, Option.bind]
    have hflat : s₁.flatten.Perm s₂.flatten := hp.flatten
    have hs₁ : lookupSym (sortByNetDesc (groupSum s₁.flatten)) sym
        = lookupSym (groupSum s₁.flatten) sym :=
      lookupSym_perm (List.perm_insertionSort _ _)
        (((List.perm_insertionSort _ _).map Prod.fst).nodup_iff.mpr
          (groupSum_keys_nodup _)) sym
    have hs₂ : lookupSym (sortByNetDesc (groupSum s₂.flatten)) sym
        = lookupSym (groupSum s₂.flatten) sym :=
      lookupSym_perm (List.perm_insertionSort _ _)
        (((List.perm_insertionSort _ _).map Prod.fst).nodup_iff.mpr
          (groupSum_keys_nodup _)) sym
    rw [hs₁, hs₂, lookupSym_groupSum, lookupSym_groupSum]
    by_cases hmem : sym ∈ s₁.flatten.map (fun p => p.1)
    · rw [if_pos hmem, if_pos ((hflat.map (fun p => p.1)).mem_iff.mp hmem)]
      exact congrArg some
        (sumAggs_perm ((hflat.filter (fun p => p.1 = sym)).map (fun p => p.2)))
    · rw [if_neg hmem,
        if_neg (fun hc => hmem ((hflat.map (fun p => p.1)).mem_iff.mpr hc))]

/-- Witness for C8: swapping the two per-file summaries leaves the
merged row of the instrument X unchanged. -/
theorem C8_merge_order_independent_witness :
    ((mergeSummaries
        [[("X", ({ total_profit := 1, total_loss := 0, net_profit := 1,
                   trades := 1 } : Agg))],
         [("X", ({ total_profit := 0, total_loss := -2, net_profit := -2,
                   trades := 1 } : Agg))]]).toOption.bind
      (fun gs => lookupSym gs "X")
      = (mergeSummaries
        [[("X", ({ total_profit := 0, total_loss := -2, net_profit := -2,
                   trades := 1 } : Agg))],
         [("X", ({ total_profit := 1, total_loss := 0, net_profit := 1,
                   trades := 1 } : Agg))]]).toOption.bind
      (fun gs => lookupSym gs "X"))
    ∧ ((mergeSummaries
        [[("X", ({ total_profit := 1, total_loss := 0, net_profit := 1,
                   trades := 1 } : Agg))],
         [("X", ({ total_profit := 0, total_loss := -2, net_profit := -2,
                   trades := 1 } : Agg))]]).isOk
      ↔ (mergeSummaries
        [[("X", ({ total_profit := 0, total_loss := -2, net_profit := -2,
                   trades := 1 } : Agg))],
         [("X", ({ total_profit := 1, total_loss := 0, net_profit := 1,
                   trades := 1 } : Agg))]]).isOk) :=
  C8_merge_order_independent
    [[("X", { total_profit := 1, total_loss := 0, net_profit := 1,
              trades := 1 })],
     [("X", { total_profit := 0, total_loss := -2, net_profit := -2,
              trades := 1 })]]
    [[("X", { total_profit := 0, total_loss := -2, net_profit := -2,
              trades := 1 })],
     [("X", { total_profit := 1, total_loss := 0, net_profit := 1,
              trades := 1 })]]
    (by decide) "X"

/-! ### C7, C9, C10: error isolation and the CLI boundary -/

/-- Claim C7: a failure while processing one file (unreadable file or
missing required columns, or any other exception) is caught at the
per-file boundary: the failing file's name is reported in the error
list, every file of the run is still processed (the collected results
are exactly all the successful files' results, in order), and whenever
the global section runs, every instrument of every successfully
processed file still appears in the global summary, and every successful
file's net profits are all recorded for the classifier. -/
theorem C7_per_file_failure_isolated (files : List FileInput) (f : FileInput)
    (e : PfError) (hf : f ∈ files) (he : process_file f = .error e) :
    f.filename ∈ (scanFiles files).errors
    ∧ (scanFiles files).all_results = successes files
    ∧ (∀ g, globalAnalysis (scanFiles files) = .ok g →
        ∀ r ∈ (scanFiles files).all_results, ∀ p ∈ r.summary,
          p.1 ∈ g.global_summary.map Prod.fst) := by
  obtain ⟨hres, herr, -⟩ := scanFiles_spec files
  refine ⟨?_, hres, ?_⟩
  · rw [herr]
    refine List.mem_map.mpr ⟨f, ?_, rfl⟩
    refine List.mem_filter.mpr ⟨hf, ?_⟩
    rw [he]
    rfl
  · intro g hg r hr p hp
    obtain ⟨-, -, hlook, -, -, -, -⟩ := globalAnalysis_ok hg
    have hflatmem : p ∈ ((scanFiles files).all_results.map
        (fun r => r.summary)).flatten := by
      rw [List.mem_flatten]
      exact ⟨r.summary, List.mem_map.mpr ⟨r, hr, rfl⟩, hp⟩
    have hkey : p.1 ∈ (((scanFiles files).all_results.map
        (fun r => r.summary)).flatten).map (fun q => q.1) :=
      List.mem_map.mpr ⟨p, hflatmem, rfl⟩
    have hsome : lookupSym g.global_summary p.1 ≠ none := by
      rw [hlook p.1, lookupSym_groupSum, if_pos hkey]
      exact Option.some_ne_none _
    match hlk : lookupSym g.global_summary p.1 with
    | none => exact absurd hlk hsome
    | some a =>
        have := lookupSym_some_mem hlk
        exact List.mem_map.mpr ⟨(p.1, a), this, rfl⟩

/-- Witness for C7: three files, the middle one missing its columns; its
name is reported and the two good files both survive to the results. -/
theorem C7_per_file_failure_isolated_witness :
    "bad.xlsx" ∈ (scanFiles
      [⟨"f1.xlsx", .table ["交易品种", "盈利"] [⟨"A", 3⟩, ⟨"TOTAL", 0⟩]⟩,
       ⟨"bad.xlsx", .table ["其他列"] []⟩,
       ⟨"f3.xlsx", .table ["交易品种", "盈利"] [⟨"B", -4⟩, ⟨"TOTAL", 0⟩]⟩]).errors
    ∧ (scanFiles
      [⟨"f1.xlsx", .table ["交易品种", "盈利"] [⟨"A", 3⟩, ⟨"TOTAL", 0⟩]⟩,
       ⟨"bad.xlsx", .table ["其他列"] []⟩,
       ⟨"f3.xlsx", .table ["交易品种", "盈利"] [⟨"B", -4⟩, ⟨"TOTAL", 0⟩]⟩]).all_results
      = successes
      [⟨"f1.xlsx", .table ["交易品种", "盈利"] [⟨"A", 3⟩, ⟨"TOTAL", 0⟩]⟩,
       ⟨"bad.xlsx", .table ["其他列"] []⟩,
       ⟨"f3.xlsx", .table ["交易品种", "盈利"] [⟨"B", -4⟩, ⟨"TOTAL", 0⟩]⟩]
    ∧ (∀ g, globalAnalysis (scanFiles
      [⟨"f1.xlsx", .table ["交易品种", "盈利"] [⟨"A", 3⟩, ⟨"TOTAL", 0⟩]⟩,
       ⟨"bad.xlsx", .table ["其他列"] []⟩,
       ⟨"f3.xlsx", .table ["交易品种", "盈利"] [⟨"B", -4⟩, ⟨"TOTAL", 0⟩]⟩]) = .ok g →
        ∀ r ∈ (scanFiles
      [⟨"f1.xlsx", .table ["交易品种", "盈利"] [⟨"A", 3⟩, ⟨"TOTAL", 0⟩]⟩,
       ⟨"bad.xlsx", .table ["其他列"] []⟩,
       ⟨"f3.xlsx", .table ["交易品种", "盈利"] [⟨"B", -4⟩, ⟨"TOTAL", 0⟩]⟩]).all_results,
          ∀ p ∈ r.summary, p.1 ∈ g.global_summary.map Prod.fst) :=
  C7_per_file_failure_isolated
    [⟨"f1.xlsx", .table ["交易品种", "盈利"] [⟨"A", 3⟩, ⟨"TOTAL", 0⟩]⟩,
     ⟨"bad.xlsx", .table ["其他列"] []⟩,
     ⟨"f3.xlsx", .table ["交易品种", "盈利"] [⟨"B", -4⟩, ⟨"TOTAL", 0⟩]⟩]
    ⟨"bad.xlsx", .table ["其他列"] []⟩
    (.missingCols ["交易品种", "盈利"])
    (by decide) (by decide)

/-- Claim C9: with a wrong argument count, or with an argument that is
not a valid directory, the program exits with code 1 before processing
any file; with a valid directory containing no matching `.xlsx` file it
prints an informational message and returns normally with exit code 0
(no exception). -/
theorem C9_cli_boundary (argv : List String) (isdir : Bool)
    (files : List FileInput) :
    (argv.length ≠ 2 →
        mainModel argv isdir files = .usageError
        ∧ exitCode (mainModel argv isdir files) = 1)
    ∧ (argv.length = 2 → isdir = false →
        mainModel argv isdir files = .dirError
        ∧ exitCode (mainModel argv isdir files) = 1)
    ∧ (argv.length = 2 → isdir = true → files = [] →
        mainModel argv isdir files = .noFiles
        ∧ exitCode (mainModel argv isdir files) = 0) := by
  refine ⟨?_, ?_, ?_⟩
  · intro hlen
    rw [mainModel, if_pos hlen]
    exact ⟨rfl, rfl⟩
  · intro hlen hdir
    rw [mainModel, if_neg (by simp [hlen]), hdir]
    exact ⟨rfl, rfl⟩
  · intro hlen hdir hfiles
    rw [mainModel, if_neg (by simp [hlen]), hdir, hfiles]
    exact ⟨rfl, rfl⟩

/-- Witness for C9 at a one-argument-missing call, an invalid directory,
and an empty directory. -/
theorem C9_cli_boundary_witness :
    ((["prog"] : List String).length ≠ 2 →
        mainModel ["prog"] true [] = .usageError
        ∧ exitCode (mainModel ["prog"] true []) = 1)
    ∧ ((["prog"] : List String).length = 2 → true = false →
        mainModel ["prog"] true [] = .dirError
        ∧ exitCode (mainModel ["prog"] true []) = 1)
    ∧ ((["prog"] : List String).length = 2 → true = true → ([] : List FileInput) = [] →
        mainModel ["prog"] true [] = .noFiles
        ∧ exitCode (mainModel ["prog"] true []) = 0) :=
  C9_cli_boundary ["prog"] true []

/-- Claim C10: when matching files exist but every one of them fails to
process, the collected results are empty, every file's name is in the
error report, and the global section raises the uncaught
`pd.concat([])` `ValueError` instead of printing an empty global
report — terminating `analyze_directory` (nonzero process exit). -/
theorem C10_all_files_fail_concat_raises (files : List FileInput)
    (hne : files ≠ [])
    (hall : ∀ f ∈ files, (process_file f).toOption = none) :
    analyze_directory files
      = some { scan := scanFiles files
               globalPart := .error .concatEmpty }
    ∧ (scanFiles files).all_results = []
    ∧ (scanFiles files).errors = files.map (fun f => f.filename)
    ∧ exitCode (mainModel ["prog", "dir"] true files) = 1 := by
  obtain ⟨hres, herr, -⟩ := scanFiles_spec files
  have hresnil : (scanFiles files).all_results = [] := by
    rw [hres]
    unfold successes
    rw [List.filterMap_eq_nil_iff]
    exact hall
  have hglobal : globalAnalysis (scanFiles files) = .error .concatEmpty := by
    unfold globalAnalysis mergeSummaries pdConcat
    rw [hresnil]
    rfl
  have hAD : analyze_directory files
      = some { scan := scanFiles files
               globalPart := .error .concatEmpty } := by
    unfold analyze_directory
    rw [if_neg hne]
    show (some { scan := scanFiles files
                 globalPart := globalAnalysis (scanFiles files) }
           : Option RunResult) = _
    rw [hglobal]
  refine ⟨hAD, hresnil, ?_, ?_⟩
  · rw [herr]
    have : files.filter (fun f => !(process_file f).isOk) = files := by
      rw [List.filter_eq_self]
      intro f hf
      have := hall f hf
      match hpf : process_file f with
      | .ok r => rw [hpf] at this; cases this
      | .error e => rfl
    rw [this]
  · unfold mainModel
    rw [if_neg (by simp), hAD]
    rfl

/-- Witness for C10: a directory with a single unreadable file. -/
theorem C10_all_files_fail_concat_raises_witness :
    analyze_directory [⟨"broken.xlsx", .failure⟩]
      = some { scan := scanFiles [⟨"broken.xlsx", .failure⟩]
               globalPart := .error .concatEmpty }
    ∧ (scanFiles [⟨"broken.xlsx", .failure⟩]).all_results = []
    ∧ (scanFiles [⟨"broken.xlsx", .failure⟩]).errors = ["broken.xlsx"]
    ∧ exitCode (mainModel ["prog", "dir"] true [⟨"broken.xlsx", .failure⟩]) = 1 :=
  C10_all_files_fail_concat_raises [⟨"broken.xlsx", .failure⟩]
    (by decide) (by decide)

/-! ### C2: symbol_records bookkeeping -/

/-- For every instrument, its per-file net profits in processing order:
one value per successfully processed file whose summary contains it. -/
def perFileNets (results : List FileResult) (sym : String) : List Int :=
  results.filterMap
    (fun r => (lookupSym r.summary sym).map (fun a => a.net_profit))

/-- Lookup at the head key. -/
theorem lookupSym_cons_self (s : String) (v : α) (rest : List (String × α)) :
    lookupSym ((s, v) :: rest) s = some v := by
  unfold lookupSym
  rw [if_pos rfl]

/-- Lookup skips a non-matching head. -/
theorem lookupSym_cons_other (s sym : String) (v : α)
    (rest : List (String × α)) (hs : s ≠ sym) :
    lookupSym ((s, v) :: rest) sym = lookupSym rest sym := by
  show (if s = sym then some v else lookupSym rest sym) = lookupSym rest sym
  rw [if_neg hs]

/-- `insertAppend` at a matching head. -/
theorem insertAppend_cons_self (s : String) (vs : List Int)
    (rest : List (String × List Int)) (v : Int) :
    insertAppend ((s, vs) :: rest) s v = (s, vs ++ [v]) :: rest := by
  unfold insertAppend
  rw [if_pos rfl]

/-- `insertAppend` skips a non-matching head. -/
theorem insertAppend_cons_other (s sym : String) (vs : List Int)
    (rest : List (String × List Int)) (v : Int) (hs : s ≠ sym) :
    insertAppend ((s, vs) :: rest) sym v = (s, vs) :: insertAppend rest sym v := by
  show (if s = sym then (s, vs ++ [v]) :: rest
        else (s, vs) :: insertAppend rest sym v)
      = (s, vs) :: insertAppend rest sym v
  rw [if_neg hs]

/-- `insertAppend` appends to the looked-up entry. -/
theorem lookupSym_insertAppend_self (m : List (String × List Int))
    (sym : String) (v : Int) :
    lookupSym (insertAppend m sym v) sym
      = some ((lookupSym m sym).getD [] ++ [v]) := by
  induction m with
  | nil => simp [insertAppend, lookupSym]
  | cons p rest ih =>
      obtain ⟨s, vs⟩ := p
      by_cases hs : s = sym
      · subst hs
        simp [insertAppend, lookupSym]
      · simp [insertAppend, lookupSym, hs, ih]

/-- `insertAppend` leaves the other keys alone. -/
theorem lookupSym_insertAppend_other (m : List (String × List Int))
    (sym s' : String) (v : Int) (hne : s' ≠ sym) :
    lookupSym (insertAppend m sym v) s' = lookupSym m s' := by
  induction m with
  | nil =>
      show lookupSym [(sym, [v])] s' = lookupSym [] s'
      rw [lookupSym_cons_other _ _ _ _ (fun h => hne h.symm)]
  | cons p rest ih =>
      obtain ⟨s, vs⟩ := p
      by_cases hs : s = sym
      · subst hs
        rw [insertAppend_cons_self,
          lookupSym_cons_other _ _ _ _ (fun h => hne h.symm),
          lookupSym_cons_other _ _ _ _ (fun h => hne h.symm)]
      · rw [insertAppend_cons_other _ _ _ _ _ hs]
        by_cases hs' : s = s'
        · subst hs'
          rw [lookupSym_cons_self, lookupSym_cons_self]
        · rw [lookupSym_cons_other _ _ _ _ hs',
            lookupSym_cons_other _ _ _ _ hs']
          exact ih

/-- The keys after `insertAppend`: unchanged when present, appended when
new. -/
theorem insertAppend_keys (m : List (String × List Int)) (sym : String)
    (v : Int) :
    (insertAppend m sym v).map Prod.fst
      = (if sym ∈ m.map Prod.fst then m.map Prod.fst
         else m.map Prod.fst ++ [sym]) := by
  induction m with
  | nil => simp [insertAppend]
  | cons p rest ih =>
      obtain ⟨s, vs⟩ := p
      by_cases hs : s = sym
      · subst hs
        simp [insertAppend]
      · simp only [insertAppend, if_neg hs, List.map_cons, ih]
        by_cases hmem : sym ∈ rest.map Prod.fst
        · rw [if_pos hmem, if_pos (by simp [hmem])]
        · rw [if_neg hmem, if_neg (by
            simp only [List.map_cons, List.mem_cons]
            rintro (hc | hc)
            · exact hs hc.symm
            · exact hmem hc)]
          simp

/-- `insertAppend` keeps the keys duplicate-free. -/
theorem insertAppend_keys_nodup {m : List (String × List Int)}
    (hnd : (m.map Prod.fst).Nodup) (sym : String) (v : Int) :
    ((insertAppend m sym v).map Prod.fst).Nodup := by
  rw [insertAppend_keys]
  by_cases hmem : sym ∈ m.map Prod.fst
  · rw [if_pos hmem]
    exact hnd
  · rw [if_neg hmem]
    simp [List.nodup_append, hnd, hmem]

/-- Recording one summary does not touch instruments outside it. -/
theorem addSummaryRecords_lookup_not_mem (m : List (String × List Int))
    (summary : List (String × Agg)) (sym : String)
    (hout : sym ∉ summary.map Prod.fst) :
    lookupSym (addSummaryRecords m summary) sym = lookupSym m sym := by
  induction summary generalizing m with
  | nil => rfl
  | cons p rest ih =>
      simp only [List.map_cons, List.mem_cons] at hout
      push_neg at hout
      show lookupSym (addSummaryRecords (insertAppend m p.1 p.2.net_profit) rest) sym
        = lookupSym m sym
      rw [ih _ hout.2,
        lookupSym_insertAppend_other m p.1 sym p.2.net_profit hout.1]

/-- Recording one unique-keyed summary appends exactly that summary's
net profit for every instrument it contains. -/
theorem addSummaryRecords_lookup_of_some (m : List (String × List Int))
    (summary : List (String × Agg)) (sym : String) (a : Agg)
    (hnd : (summary.map Prod.fst).Nodup)
    (hlk : lookupSym summary sym = some a) :
    lookupSym (addSummaryRecords m summary) sym
      = some ((lookupSym m sym).getD [] ++ [a.net_profit]) := by
  induction summary generalizing m with
  | nil => cases hlk
  | cons p rest ih =>
      obtain ⟨s, w⟩ := p
      simp only [List.map_cons, List.nodup_cons] at hnd
      by_cases hs : s = sym
      · subst hs
        have hw : w = a := by
          have hh : lookupSym ((s, w) :: rest) s = some w := by
            unfold lookupSym
            rw [if_pos rfl]
          rw [hh] at hlk
          exact Option.some.inj hlk
        show lookupSym (addSummaryRecords (insertAppend m s w.net_profit) rest) s
          = some ((lookupSym m s).getD [] ++ [a.net_profit])
        rw [addSummaryRecords_lookup_not_mem _ _ _ hnd.1,
          lookupSym_insertAppend_self, hw]
      · have hlk' : lookupSym rest sym = some a := by
          unfold lookupSym at hlk
          rw [if_neg hs] at hlk
          exact hlk
        show lookupSym (addSummaryRecords (insertAppend m s w.net_profit) rest) sym
          = some ((lookupSym m sym).getD [] ++ [a.net_profit])
        rw [ih _ hnd.2 hlk',
          lookupSym_insertAppend_other _ _ _ _ (fun h => hs h.symm)]

/-- Recording a summary that does not contain an instrument leaves its
record unchanged (lookup-failure form). -/
theorem addSummaryRecords_lookup_of_none (m : List (String × List Int))
    (summary : List (String × Agg)) (sym : String)
    (hlk : lookupSym summary sym = none) :
    lookupSym (addSummaryRecords m summary) sym = lookupSym m sym :=
  addSummaryRecords_lookup_not_mem m summary sym
    (lookupSym_eq_none_iff.mp hlk)

/-- `addSummaryRecords` keeps the keys duplicate-free. -/
theorem addSummaryRecords_keys_nodup {m : List (String × List Int)}
    (hnd : (m.map Prod.fst).Nodup) (summary : List (String × Agg)) :
    ((addSummaryRecords m summary).map Prod.fst).Nodup := by
  induction summary generalizing m with
  | nil => exact hnd
  | cons p rest ih =>
      show ((addSummaryRecords (insertAppend m p.1 p.2.net_profit) rest).map
        Prod.fst).Nodup
      exact ih (insertAppend_keys_nodup hnd p.1 p.2.net_profit)

/-- Unfolding `perFileNets` over the first file. -/
theorem perFileNets_cons (r : FileResult) (rest : List FileResult)
    (sym : String) :
    perFileNets (r :: rest) sym
      = (match lookupSym r.summary sym with
         | some a => a.net_profit :: perFileNets rest sym
         | none => perFileNets rest sym) := by
  unfold perFileNets
  rw [List.filterMap_cons]
  match hlk : lookupSym r.summary sym with
  | some a => rfl
  | none => rfl

/-- Folding the successful summaries over an accumulator appends, for
every instrument, exactly its per-file net profits (in order). -/
theorem foldAdd_lookup_getD (results : List FileResult)
    (hnd : ∀ r ∈ results, (r.summary.map Prod.fst).Nodup)
    (m : List (String × List Int)) (sym : String) :
    (lookupSym (results.foldl (fun m r => addSummaryRecords m r.summary) m)
      sym).getD []
      = (lookupSym m sym).getD [] ++ perFileNets results sym := by
  induction results generalizing m with
  | nil => simp [perFileNets]
  | cons r rest ih =>
      have hndr := hnd r (List.mem_cons_self _ _)
      have hndrest : ∀ x ∈ rest, (x.summary.map Prod.fst).Nodup :=
        fun x hx => hnd x (List.mem_cons_of_mem _ hx)
      show (lookupSym (rest.foldl (fun m r => addSummaryRecords m r.summary)
          (addSummaryRecords m r.summary)) sym).getD []
        = (lookupSym m sym).getD [] ++ perFileNets (r :: rest) sym
      rw [ih hndrest, perFileNets_cons]
      match hlk : lookupSym r.summary sym with
      | some a =>
          rw [addSummaryRecords_lookup_of_some m r.summary sym a hndr hlk]
          simp
      | none =>
          rw [addSummaryRecords_lookup_of_none m r.summary sym hlk]

/-- The recorded instruments are exactly those with at least one
per-file net profit. -/
theorem foldAdd_lookup_none (results : List FileResult)
    (hnd : ∀ r ∈ results, (r.summary.map Prod.fst).Nodup)
    (m : List (String × List Int)) (sym : String) :
    lookupSym (results.foldl (fun m r => addSummaryRecords m r.summary) m) sym
        = none
      ↔ (lookupSym m sym = none ∧ perFileNets results sym = []) := by
  induction results generalizing m with
  | nil => simp [perFileNets]
  | cons r rest ih =>
      have hndr := hnd r (List.mem_cons_self _ _)
      have hndrest : ∀ x ∈ rest, (x.summary.map Prod.fst).Nodup :=
        fun x hx => hnd x (List.mem_cons_of_mem _ hx)
      show (lookupSym (rest.foldl (fun m r => addSummaryRecords m r.summary)
          (addSummaryRecords m r.summary)) sym = none)
        ↔ _
      rw [ih hndrest, perFileNets_cons]
      match hlk : lookupSym r.summary sym with
      | some a =>
          rw [addSummaryRecords_lookup_of_some m r.summary sym a hndr hlk]
          simp
      | none =>
          rw [addSummaryRecords_lookup_of_none m r.summary sym hlk]

/-- The `symbol_records` table always has duplicate-free keys. -/
theorem foldAdd_keys_nodup (results : List FileResult)
    (m : List (String × List Int)) (hnd : (m.map Prod.fst).Nodup) :
    (((results.foldl (fun m r => addSummaryRecords m r.summary) m)).map
      Prod.fst).Nodup := by
  induction results generalizing m with
  | nil => exact hnd
  | cons r rest ih =>
      exact ih _ (addSummaryRecords_keys_nodup hnd r.summary)

/-! ### C2: the classifier -/

/-- The Boolean test under which the loop appends to
`profitable_symbols`: seen in at least 2 files and all nets positive. -/
def profB (p : String × List Int) : Bool :=
  !decide (p.2.length < 2) && p.2.all (fun x => 0 < x)

/-- The Boolean test under which the loop appends to `loss_symbols`:
seen in at least 2 files, not all positive (the `elif`), all negative. -/
def lossB (p : String × List Int) : Bool :=
  !decide (p.2.length < 2) && !(p.2.all (fun x => 0 < x))
    && p.2.all (fun x => x < 0)

/-- The classification loop, written as filters of its input. -/
theorem classify_foldl (m : List (String × List Int))
    (acc : List (String × Rat × Nat) × List (String × Rat × Nat)) :
    m.foldl
      (fun acc p =>
        if p.2.length < 2 then acc
        else if p.2.all (fun x => 0 < x) then
          (acc.1 ++ [(p.1, avgR p.2, p.2.length)], acc.2)
        else if p.2.all (fun x => x < 0) then
          (acc.1, acc.2 ++ [(p.1, avgR p.2, p.2.length)])
        else acc) acc
    = (acc.1 ++ (m.filter profB).map (fun p => (p.1, avgR p.2, p.2.length)),
       acc.2 ++ (m.filter lossB).map (fun p => (p.1, avgR p.2, p.2.length))) := by
  induction m generalizing acc with
  | nil => simp
  | cons p rest ih =>
      simp only [List.foldl_cons, List.filter_cons]
      by_cases h1 : p.2.length < 2
      · have hp : profB p = false := by simp [profB, h1]
        have hl : lossB p = false := by simp [lossB, h1]
        rw [if_pos h1, ih, hp, hl]
        simp
      · by_cases h2 : p.2.all (fun x => 0 < x)
        · have hp : profB p = true := by simp [profB, h1, h2]
          have hl : lossB p = false := by simp [lossB, h2]
          rw [if_neg h1, if_pos h2, ih, hp, hl]
          simp
        · by_cases h3 : p.2.all (fun x => x < 0)
          · have hp : profB p = false := by simp [profB, h2]
            have hl : lossB p = true := by simp [lossB, h1, h2, h3]
            rw [if_neg h1, if_neg h2, if_pos h3, ih, hp, hl]
            simp
          · have hp : profB p = false := by simp [profB, h2]
            have hl : lossB p = false := by simp [lossB, h3]
            rw [if_neg h1, if_neg h2, if_neg h3, ih, hp, hl]
            simp

/-- `classifySymbols` as filters of its input. -/
theorem classifySymbols_eq (m : List (String × List Int)) :
    classifySymbols m
      = ((m.filter profB).map (fun p => (p.1, avgR p.2, p.2.length)),
         (m.filter lossB).map (fun p => (p.1, avgR p.2, p.2.length))) := by
  unfold classifySymbols
  rw [classify_foldl]
  simp

/-- Membership in the profitable list, over a unique-keyed records
table. -/
theorem mem_classify_profitable {m : List (String × List Int)}
    (hnd : (m.map Prod.fst).Nodup) (sym : String) (score : Rat) (cnt : Nat) :
    (sym, score, cnt) ∈ (classifySymbols m).1
      ↔ ∃ l, lookupSym m sym = some l ∧ 2 ≤ l.length ∧ (∀ x ∈ l, 0 < x)
          ∧ score = avgR l ∧ cnt = l.length := by
  rw [classifySymbols_eq]
  simp only [List.mem_map, List.mem_filter]
  constructor
  · rintro ⟨p, ⟨hpm, hpc⟩, hpe⟩
    obtain ⟨h1, h2, h3⟩ : p.1 = sym ∧ avgR p.2 = score ∧ p.2.length = cnt := by
      refine ⟨congrArg Prod.fst hpe, ?_, ?_⟩
      · exact congrArg (fun q => q.2.1) hpe
      · exact congrArg (fun q => q.2.2) hpe
    simp only [profB, Bool.and_eq_true, Bool.not_eq_true', decide_eq_false_iff_not,
      List.all_eq_true, decide_eq_true_eq] at hpc
    refine ⟨p.2, ?_, not_lt.mp hpc.1, hpc.2, h2.symm, h3.symm⟩
    rw [← h1]
    exact (lookupSym_eq_some_iff_of_nodup hnd).mpr (by
      have : (p.1, p.2) = p := rfl
      rw [this]
      exact hpm)
  · rintro ⟨l, hlk, hlen, hall, rfl, rfl⟩
    refine ⟨(sym, l), ⟨lookupSym_some_mem hlk, ?_⟩, rfl⟩
    simp only [profB, Bool.and_eq_true, Bool.not_eq_true', decide_eq_false_iff_not,
      List.all_eq_true, decide_eq_true_eq]
    exact ⟨not_lt.mpr hlen, hall⟩

/-- Membership in the losing list, over a unique-keyed records table. -/
theorem mem_classify_losing {m : List (String × List Int)}
    (hnd : (m.map Prod.fst).Nodup) (sym : String) (score : Rat) (cnt : Nat) :
    (sym, score, cnt) ∈ (classifySymbols m).2
      ↔ ∃ l, lookupSym m sym = some l ∧ 2 ≤ l.length ∧ (∀ x ∈ l, x < 0)
          ∧ score = avgR l ∧ cnt = l.length := by
  rw [classifySymbols_eq]
  simp only [List.mem_map, List.mem_filter]
  constructor
  · rintro ⟨p, ⟨hpm, hpc⟩, hpe⟩
    obtain ⟨h1, h2, h3⟩ : p.1 = sym ∧ avgR p.2 = score ∧ p.2.length = cnt := by
      refine ⟨congrArg Prod.fst hpe, ?_, ?_⟩
      · exact congrArg (fun q => q.2.1) hpe
      · exact congrArg (fun q => q.2.2) hpe
    simp only [lossB, Bool.and_eq_true, Bool.not_eq_true', decide_eq_false_iff_not,
      List.all_eq_true, decide_eq_true_eq] at hpc
    refine ⟨p.2, ?_, not_lt.mp hpc.1.1, hpc.2, h2.symm, h3.symm⟩
    rw [← h1]
    exact (lookupSym_eq_some_iff_of_nodup hnd).mpr (by
      have : (p.1, p.2) = p := rfl
      rw [this]
      exact hpm)
  · rintro ⟨l, hlk, hlen, hall, rfl, rfl⟩
    refine ⟨(sym, l), ⟨lookupSym_some_mem hlk, ?_⟩, rfl⟩
    have hne : l ≠ [] := by
      intro hc
      rw [hc] at hlen
      cases hlen
    have hnotall : ¬ (l.all (fun x => 0 < x) = true) := by
      intro hc
      match l, hne with
      | x :: t, _ =>
          have hx0 := (List.all_eq_true.mp hc) x (List.mem_cons_self _ _)
          have hxneg := hall x (List.mem_cons_self _ _)
          have := of_decide_eq_true hx0
          linarith
    simp only [lossB, Bool.and_eq_true, Bool.not_eq_true', decide_eq_false_iff_not,
      List.all_eq_true, decide_eq_true_eq]
    refine ⟨⟨not_lt.mpr hlen, ?_⟩, hall⟩
    exact Bool.not_eq_true _ ▸ (Bool.eq_false_iff.mpr hnotall)

/-- The profitable list is emitted sorted by mean, descending. -/
theorem sortProfitDesc_pairwise (l : List (String × Rat × Nat)) :
    List.Pairwise (fun a b : String × Rat × Nat => b.2.1 ≤ a.2.1)
      (sortProfitDesc l) := by
  haveI : IsTotal (String × Rat × Nat) (fun a b => b.2.1 ≤ a.2.1) :=
    ⟨fun a b => le_total b.2.1 a.2.1⟩
  haveI : IsTrans (String × Rat × Nat) (fun a b => b.2.1 ≤ a.2.1) :=
    ⟨fun a b c hab hbc => le_trans hbc hab⟩
  exact List.sorted_insertionSort _ l

/-- The losing list is emitted sorted by mean, ascending. -/
theorem sortLossAsc_pairwise (l : List (String × Rat × Nat)) :
    List.Pairwise (fun a b : String × Rat × Nat => a.2.1 ≤ b.2.1)
      (sortLossAsc l) := by
  haveI : IsTotal (String × Rat × Nat) (fun a b => a.2.1 ≤ b.2.1) :=
    ⟨fun a b => le_total a.2.1 b.2.1⟩
  haveI : IsTrans (String × Rat × Nat) (fun a b => a.2.1 ≤ b.2.1) :=
    ⟨fun a b c hab hbc => le_trans hab hbc⟩
  exact List.sorted_insertionSort _ l

/-- Sorting the profitable list does not change its members. -/
theorem mem_sortProfitDesc {x : String × Rat × Nat}
    {l : List (String × Rat × Nat)} : x ∈ sortProfitDesc l ↔ x ∈ l :=
  (List.perm_insertionSort _ _).mem_iff

/-- Sorting the losing list does not change its members. -/
theorem mem_sortLossAsc {x : String × Rat × Nat}
    {l : List (String × Rat × Nat)} : x ∈ sortLossAsc l ↔ x ∈ l :=
  (List.perm_insertionSort _ _).mem_iff

/-- `Except.toOption` succeeds exactly on `.ok`. -/
theorem Except_toOption_eq_some {ε α : Type} {e : Except ε α} {r : α} :
    e.toOption = some r ↔ e = .ok r := by
  cases e <;> simp [Except.toOption]

/-- Per-file summaries have duplicate-free instrument keys. -/
theorem processRecords_keys_nodup (df : List TradeRecord) :
    ((processRecords df).map Prod.fst).Nodup := by
  unfold processRecords sortByNetDesc
  refine ((List.perm_insertionSort _ _).map Prod.fst).nodup_iff.mpr ?_
  rw [List.map_map]
  have h : List.map (Prod.fst ∘ fun sym => (sym, aggFor df sym)) (groupKeys df)
      = groupKeys df := List.map_id' _
  rw [h]
  exact List.nodup_dedup _

/-- Every collected result's summary has duplicate-free keys. -/
theorem successes_summary_nodup (files : List FileInput) :
    ∀ r ∈ successes files, (r.summary.map Prod.fst).Nodup := by
  intro r hr
  obtain ⟨f, -, hpf⟩ := List.mem_filterMap.mp hr
  obtain ⟨cols, rows, -, -, -, hsum, -, -⟩ :=
    process_file_ok (Except_toOption_eq_some.mp hpf)
  rw [hsum]
  exact processRecords_keys_nodup _

/-- Claim C2: in every run that reaches the global section, an
instrument is in the consistently-profitable output iff it has per-file
net profits from at least 2 successfully processed files, all strictly
positive, with reported score the arithmetic mean of those values;
symmetrically for the consistently-losing output with all values
strictly negative; the profitable list is sorted by mean descending and
the losing list by mean ascending. -/
theorem C2_consistency_classifier (files : List FileInput) (g : GlobalPart)
    (h : globalAnalysis (scanFiles files) = .ok g) (sym : String)
    (score : Rat) (cnt : Nat) :
    ((sym, score, cnt) ∈ g.profitable_symbols
      ↔ (2 ≤ (perFileNets (successes files) sym).length
         ∧ (∀ x ∈ perFileNets (successes files) sym, 0 < x)
         ∧ score = avgR (perFileNets (successes files) sym)
         ∧ cnt = (perFileNets (successes files) sym).length))
    ∧ ((sym, score, cnt) ∈ g.loss_symbols
      ↔ (2 ≤ (perFileNets (successes files) sym).length
         ∧ (∀ x ∈ perFileNets (successes files) sym, x < 0)
         ∧ score = avgR (perFileNets (successes files) sym)
         ∧ cnt = (perFileNets (successes files) sym).length))
    ∧ List.Pairwise (fun a b : String × Rat × Nat => b.2.1 ≤ a.2.1)
        g.profitable_symbols
    ∧ List.Pairwise (fun a b : String × Rat × Nat => a.2.1 ≤ b.2.1)
        g.loss_symbols := by
  obtain ⟨-, -, hsr⟩ := scanFiles_spec files
  obtain ⟨-, -, -, -, -, hprof, hloss⟩ := globalAnalysis_ok h
  have hnodup : ∀ r ∈ successes files, (r.summary.map Prod.fst).Nodup :=
    successes_summary_nodup files
  have hkeys : (((scanFiles files).symbol_records).map Prod.fst).Nodup := by
    rw [hsr]
    exact foldAdd_keys_nodup _ _ (by simp)
  have hlookup : ∀ l,
      lookupSym (scanFiles files).symbol_records sym = some l
        ↔ (l = perFileNets (successes files) sym
           ∧ perFileNets (successes files) sym ≠ []) := by
    intro l
    constructor
    · intro hlk
      have hgd := foldAdd_lookup_getD (successes files) hnodup [] sym
      rw [← hsr, hlk] at hgd
      simp only [lookupSym, Option.getD_some] at hgd
      have hnone := foldAdd_lookup_none (successes files) hnodup [] sym
      rw [← hsr] at hnone
      constructor
      · simpa using hgd
      · intro hc
        have : lookupSym (scanFiles files).symbol_records sym = none :=
          hnone.mpr ⟨rfl, hc⟩
        rw [hlk] at this
        cases this
    · rintro ⟨rfl, hne⟩
      have hnone := foldAdd_lookup_none (successes files) hnodup [] sym
      rw [← hsr] at hnone
      match hlk : lookupSym (scanFiles files).symbol_records sym with
      | none =>
          exact absurd (hnone.mp hlk).2 hne
      | some l' =>
          have hgd := foldAdd_lookup_getD (successes files) hnodup [] sym
          rw [← hsr, hlk] at hgd
          simp only [Option.getD_some] at hgd
          rw [hgd]
          rfl
  refine ⟨?_, ?_, ?_, ?_⟩
  · rw [hprof]
    rw [mem_sortProfitDesc, mem_classify_profitable hkeys]
    constructor
    · rintro ⟨l, hlk, hlen, hall, hsc, hcnt⟩
      obtain ⟨rfl, -⟩ := (hlookup l).mp hlk
      exact ⟨hlen, hall, hsc, hcnt⟩
    · rintro ⟨hlen, hall, hsc, hcnt⟩
      refine ⟨perFileNets (successes files) sym, ?_, hlen, hall, hsc, hcnt⟩
      refine (hlookup _).mpr ⟨rfl, ?_⟩
      intro hc
      rw [hc] at hlen
      cases hlen
  · rw [hloss]
    rw [mem_sortLossAsc, mem_classify_losing hkeys]
    constructor
    · rintro ⟨l, hlk, hlen, hall, hsc, hcnt⟩
      obtain ⟨rfl, -⟩ := (hlookup l).mp hlk
      exact ⟨hlen, hall, hsc, hcnt⟩
    · rintro ⟨hlen, hall, hsc, hcnt⟩
      refine ⟨perFileNets (successes files) sym, ?_, hlen, hall, hsc, hcnt⟩
      refine (hlookup _).mpr ⟨rfl, ?_⟩
      intro hc
      rw [hc] at hlen
      cases hlen
  · rw [hprof]
    exact sortProfitDesc_pairwise _
  · rw [hloss]
    exact sortLossAsc_pairwise _

/-- A two-file run with one consistently profitable instrument `P`
(nets 30 and 70) and one consistently losing instrument `L` (nets -10
and -30), used to witness C2. -/
def wFiles : List FileInput :=
  [⟨"w1.xlsx", .table ["交易品种", "盈利"]
      [⟨"P", 30⟩, ⟨"L", -10⟩, ⟨"TOTAL", 20⟩]⟩,
   ⟨"w2.xlsx", .table ["交易品种", "盈利"]
      [⟨"P", 70⟩, ⟨"L", -30⟩, ⟨"TOTAL", 40⟩]⟩]

/-- The global section's output on `wFiles`. -/
def wG : GlobalPart :=
  { global_summary :=
      [("P", { total_profit := 100, total_loss := 0, net_profit := 100,
               trades := 2 }),
       ("L", { total_profit := 0, total_loss := -40, net_profit := -40,
               trades := 2 })]
    global_top_profit := ("P", 100)
    global_top_loss := ("L", -40)
    profitable_symbols := [("P", avgR [30, 70], 2)]
    loss_symbols := [("L", avgR [-10, -30], 2)] }

/-- Witness for C2 on `wFiles`: `P` is reported as consistently
profitable with score the mean of its two per-file nets, and `L` as
consistently losing with the mean of its two per-file nets. -/
theorem C2_consistency_classifier_witness :
    ("P", avgR [30, 70], 2) ∈ wG.profitable_symbols
    ∧ ("L", avgR [-10, -30], 2) ∈ wG.loss_symbols := by
  have hP := C2_consistency_classifier wFiles wG rfl "P" (avgR [30, 70]) 2
  have hL := C2_consistency_classifier wFiles wG rfl "L" (avgR [-10, -30]) 2
  refine ⟨hP.1.mpr ⟨by decide, by decide, rfl, by decide⟩,
          hL.2.1.mpr ⟨by decide, by decide, rfl, by decide⟩⟩
